import Mathlib

/-!
Verification development for the HeyU notification fabric.

The definitions below are a shallow embedding of the Python sources:

* `heyu/protocol.py` — the `Message` codec (`Message.__init__`,
  `Message.from_frame`, `Message.to_frame`, `Message.__getattr__`,
  `Message.known`, the `_versions` table);
* `heyu/hub.py`     — the hub registry and fan-out
  (`HubServer.subscribe/unsubscribe/submit`, `HubApplication.notify`,
  `HubApplication.recv_frame`, `HubApplication.disconnect/closed`);
* `heyu/notifier.py` — the notifier queue (`NotifierServer.stop/next`)
  and the script-template pre-processor (`_interpret_script`);
* `heyu/gtk.py`     — the `backoff` generator's sleep-update rule.

Python values that appear as message arguments (strings, integers and
`None`) are embedded as `Value`; a msgpack payload after `msgpack.loads`
is embedded as `MsgData` (a mapping is an association list in wire order;
Python dicts have unique keys, so frames carry `Nodup` key lists).
Exceptions (`ValueError`) are embedded as `Except String`.
-/

namespace HeyU

/-- A Python value usable as a message argument: `None`, an `int`, or a
`str`. -/
inductive Value where
  | nil : Value
  | int (n : Int) : Value
  | str (s : String) : Value
deriving DecidableEq, Repr

/-- The result of `msgpack.loads` on a frame: either a mapping (an
association list, in wire order) or some non-mapping object. -/
inductive MsgData where
  | map (entries : List (String × Value)) : MsgData
  | notMap : MsgData
deriving DecidableEq, Repr

/-- Python truthiness (`bool(v)`): `None`, `0` and `""` are falsy. -/
def Value.truthy : Value → Bool
  | .nil => false
  | .int n => n != 0
  | .str s => s != ""

/-- Python `str(v)`, as used by `"%s" % v` formatting. -/
def pyStr : Value → String
  | .nil => "None"
  | .int n => toString n
  | .str s => s

/-- One entry of the `_versions` table of `heyu/protocol.py`: the
`required` argument names and the `defaults` mapping of a message type. -/
structure TypeInfo where
  required : List String
  defaults : List (String × Value)
deriving DecidableEq, Repr

/-- `URGENCY_LOW` of `heyu/protocol.py`. -/
def URGENCY_LOW : Int := 0

/-- The version-0 message types of the `_versions` table of
`heyu/protocol.py`. -/
def versions0 : List (String × TypeInfo) :=
  [("notify", ⟨["app_name", "summary", "body"],
      [("urgency", .int URGENCY_LOW), ("category", .nil), ("id", .nil)]⟩),
   ("accepted", ⟨["id"], []⟩),
   ("subscribe", ⟨[], []⟩),
   ("subscribed", ⟨[], []⟩),
   ("goodbye", ⟨[], []⟩),
   ("error", ⟨["reason"], []⟩)]

/-- The `_versions` dictionary of `heyu/protocol.py`: the only supported
protocol version is 0. -/
def _versions : List (Int × List (String × TypeInfo)) := [(0, versions0)]

/-- `_curr_version` of `heyu/protocol.py`. -/
def _curr_version : Int := 0

/-- Lookup of a message type in a version's type table.  A non-string
`msg_type` is never a key of the Python dict (`msg_type in _versions[v]`
is then `False`). -/
def typeLookup (types : List (String × TypeInfo)) : Value → Option TypeInfo
  | .str s => types.lookup s
  | _ => none

/-- Version-0 type lookup. -/
def typeInfo0 (msg_type : Value) : Option TypeInfo := typeLookup versions0 msg_type

/-- A `heyu.protocol.Message`: the protocol version, the message type,
the cached `_defaults` for the type, the normalised argument bag
`_args`, and the `_frame_cache`. -/
structure Message where
  version : Int
  msg_type : Value
  defaults : List (String × Value)
  args : List (String × Value)
  frameCache : List (Int × MsgData)
deriving DecidableEq, Repr

/-- `Message.__init__` of `heyu/protocol.py`.  `version` and `frame` are
the popped `__version__` and `__frame__` keyword arguments (`__version__`
defaults to `_curr_version`, `__frame__` to `None`); `args` is the
remaining keyword-argument dict in order.  Raised `ValueError`s are the
`error` branch. -/
def Message.init (msg_type : Value) (version : Value) (frame : Option MsgData)
    (args : List (String × Value)) : Except String Message :=
  let vtypes : Option (Int × List (String × TypeInfo)) :=
    match version with
    | .int n => (_versions.lookup n).map (fun t => (n, t))
    | _ => none
  match vtypes with
  | none => .error "cannot handle PDUs of version"
  | some (n, types) =>
    let info := typeLookup types msg_type
    let defaults := (info.map TypeInfo.defaults).getD []
    let required := (info.map TypeInfo.required).getD []
    match required.find? (fun key => (args.lookup key).isNone) with
    | some key => .error ("missing required PDU field " ++ key)
    | none =>
      .ok { version := n
            msg_type := msg_type
            defaults := defaults
            args := args.filter (fun kv =>
              match defaults.lookup kv.1 with
              | none => true
              | some d => kv.2 != d)
            frameCache := match frame with
              | some f => [(n, f)]
              | none => [] }

/-- `Message.from_frame` of `heyu/protocol.py`.  The incoming frame has
already been `msgpack.loads`-ed into a `MsgData`. -/
def Message.from_frame (frame : MsgData) : Except String Message :=
  match frame with
  | .notMap => .error "invalid PDU"
  | .map data =>
    match data.lookup "__version__", data.lookup "msg_type" with
    | some version, some msg_type =>
      Message.init msg_type version (some frame)
        (data.filter (fun kv => kv.1 != "__version__" && kv.1 != "msg_type"))
    | _, _ => .error "missing required PDU field"

/-- `Message.__getattr__` of `heyu/protocol.py`: `none` is the raised
`AttributeError`, `some v` the argument (or default) value. -/
def Message.getattr (m : Message) (name : String) : Option Value :=
  match m.args.lookup name with
  | some v => some v
  | none => m.defaults.lookup name

/-- `Message.__getattr__` at an attribute known to exist (used where the
Python code accesses attributes that the message type always defines). -/
def Message.getattrD (m : Message) (name : String) : Value :=
  (m.getattr name).getD .nil

/-- `Message.known` of `heyu/protocol.py`. -/
def Message.known (m : Message) : Bool :=
  match _versions.lookup m.version with
  | some types => (typeLookup types m.msg_type).isSome
  | none => false

/-- Python dict assignment `d[k] = v` on an association list: replace in
place if the key is present, else append. -/
def dinsert (l : List (String × Value)) (k : String) (v : Value) :
    List (String × Value) :=
  if l.any (fun kv => kv.1 == k) then
    l.map (fun kv => if kv.1 == k then (k, v) else kv)
  else l ++ [(k, v)]

/-- The frame `Message.to_frame` builds on a cache miss: the `_args`
dict, then `msg_type`, then `__version__` (Python dict insertion
order). -/
def freshFrame (m : Message) : MsgData :=
  .map (dinsert (dinsert m.args "msg_type" m.msg_type) "__version__" (.int m.version))

/-- `Message.to_frame` of `heyu/protocol.py`.  Returns the frame and the
message with its `_frame_cache` updated (the only mutation the method
performs). -/
def Message.to_frame (m : Message) (version : Int) :
    Except String (MsgData × Message) :=
  match m.frameCache.lookup version with
  | some f => .ok (f, m)
  | none =>
    if version != _curr_version then
      .error "cannot serialize into version"
    else
      .ok (freshFrame m, { m with frameCache := m.frameCache ++ [(version, freshFrame m)] })

example :
    Message.init (.str "notify") (.int 0) none
      [("app_name", .str "a"), ("summary", .str "s"), ("body", .str "b")]
      = .ok ⟨0, .str "notify",
          [("urgency", .int 0), ("category", .nil), ("id", .nil)],
          [("app_name", .str "a"), ("summary", .str "s"), ("body", .str "b")], []⟩ := by
  rfl

example :
    (Message.init (.str "notify") (.int 0) none [("summary", .str "s")]).isOk = false := by
  decide

example :
    (Message.from_frame (.map [("__version__", .int 0), ("msg_type", .str "zzz"),
        ("x", .int 3)])).map Message.known = .ok false := by
  rfl

example :
    (Message.from_frame (.map [("__version__", .int 1), ("msg_type", .str "goodbye")])).isOk
      = false := by
  decide

/-! ## The hub (`heyu/hub.py`)

A client connection is identified by `id(client)`, embedded as a `Nat`.
The subscriber registry `HubServer._subscribers` maps that identity to
the subscription's protocol version; it is an association list with
Python-dict semantics (unique keys).  Network writes are embedded as
lists of attempted frames; whether a write raises is an oracle
`sendFails` (the hub swallows those exceptions). -/

/-- `HubServer.subscribe`: `self._subscribers[id(client)] = (client, version)`
(dict assignment: replace in place, or append). -/
def HubServer.subscribe (subs : List (Nat × Int)) (client : Nat) (version : Int) :
    List (Nat × Int) :=
  if subs.any (fun cv => cv.1 == client) then
    subs.map (fun cv => if cv.1 == client then (client, version) else cv)
  else subs ++ [(client, version)]

/-- `HubServer.unsubscribe`: `self._subscribers.pop(id(client), None)`.
A Python dict holds its key at most once, so removing every entry with
the key is the same removal. -/
def HubServer.unsubscribe (subs : List (Nat × Int)) (client : Nat) :
    List (Nat × Int) :=
  subs.filter (fun cv => cv.1 != client)

/-- The loop body of `HubServer.submit` for one subscriber: try
`client.send_frame(msg.to_frame(version))`, swallowing any exception
(`to_frame` failures as well as write failures); on a `to_frame`
failure nothing is attempted, otherwise the write is attempted and is
delivered exactly when the transport does not raise. -/
def submitStep (sendFails : Nat → Bool)
    (acc : Message × List (Nat × MsgData) × List (Nat × MsgData))
    (cv : Nat × Int) : Message × List (Nat × MsgData) × List (Nat × MsgData) :=
  match acc.1.to_frame cv.2 with
  | .ok (f, m) =>
    (m, acc.2.1 ++ [(cv.1, f)],
     acc.2.2 ++ if sendFails cv.1 then [] else [(cv.1, f)])
  | .error _ => acc

/-- `HubServer.submit`: forward `msg` to every subscriber, swallowing
per-subscriber exceptions.  Returns the message with its frame cache
threaded through the loop, the writes attempted (a `to_frame` failure
skips the write), and the writes that did not raise (per the
`sendFails` oracle). -/
def HubServer.submit (sendFails : Nat → Bool) (subs : List (Nat × Int))
    (msg : Message) : Message × List (Nat × MsgData) × List (Nat × MsgData) :=
  subs.foldl (submitStep sendFails) (msg, [], [])

/-- The hostname determination of `HubApplication.__init__`: the hub's
own fully-qualified name (`socket.getfqdn()`) for a loopback peer,
otherwise the reverse-resolved peer name (`socket.getnameinfo`), falling
back to the bare peer address when the lookup raises. -/
def HubApplication.hostnameOf (fqdn : String) (resolve : String → Option String)
    (addr : String) : String :=
  if addr == "127.0.0.1" || addr == "::1" then fqdn
  else
    match resolve addr with
    | some h => h
    | none => addr

/-- The message id chosen by `HubApplication.notify`:
`msg.id or str(uuid.uuid4())` (any falsy id — `None`, `""`, `0` — is
replaced by the freshly minted UUID4, embedded as `freshUuid`). -/
def hubMsgId (freshUuid : String) (msg : Message) : Value :=
  let idv := msg.getattrD "id"
  if idv.truthy then idv else .str freshUuid

/-- The fanned-out message `HubApplication.notify` constructs: the id as
chosen by `hubMsgId`, `app_name` prefixed with `"[<hostname>]"`, and
`summary`, `body`, `urgency` and `category` copied from the incoming
message.  (`notify` messages always define all six attributes, so the
`getattrD` accesses cannot raise.) -/
def HubApplication.rewritten (hostname freshUuid : String) (msg : Message) :
    Except String Message :=
  Message.init (.str "notify") (.int _curr_version) none
    [("id", hubMsgId freshUuid msg),
     ("app_name", .str ("[" ++ hostname ++ "]" ++ pyStr (msg.getattrD "app_name"))),
     ("summary", msg.getattrD "summary"),
     ("body", msg.getattrD "body"),
     ("urgency", msg.getattrD "urgency"),
     ("category", msg.getattrD "category")]

/-- `HubApplication.notify`: build the rewritten message, submit it to
every subscriber, reply `accepted{id}` to the submitter, and close the
connection unless it is persistent.  Returns the (unchanged) registry,
the attempted and the delivered fan-out writes, the frames sent back to
the submitter, and whether the connection was closed; the `error` branch
is a `ValueError` escaping to `recv_frame`. -/
def HubApplication.notify (sendFails : Nat → Bool) (hostname freshUuid : String)
    (persist : Bool) (subs : List (Nat × Int)) (msg : Message) :
    Except String (List (Nat × Int) × List (Nat × MsgData) × List (Nat × MsgData)
      × List MsgData × Bool) :=
  match HubApplication.rewritten hostname freshUuid msg with
  | .error e => .error e
  | .ok notif =>
    let r := HubServer.submit sendFails subs notif
    match Message.init (.str "accepted") (.int _curr_version) none
        [("id", hubMsgId freshUuid msg)] with
    | .error e => .error e
    | .ok reply =>
      match reply.to_frame _curr_version with
      | .error e => .error e
      | .ok (rf, _) => .ok (subs, r.2.1, r.2.2, [rf], !persist)

/-- A reply frame the hub sends with `protocol.Message(t, ...).to_frame()`.
Every reply the hub builds is a version-0 message with its required
arguments supplied, so the construction cannot fail; the `notMap`
fallbacks are unreachable. -/
def replyFrame (t : String) (args : List (String × Value)) : MsgData :=
  match Message.init (.str t) (.int _curr_version) none args with
  | .ok m =>
    match m.to_frame _curr_version with
    | .ok (f, _) => f
    | .error _ => .notMap
  | .error _ => .notMap

/-- `HubApplication.disconnect`: unsubscribe, best-effort `goodbye`
frame, close. -/
def HubApplication.disconnect (subs : List (Nat × Int)) (client : Nat) :
    List (Nat × Int) × List MsgData × Bool :=
  (HubServer.unsubscribe subs client, [replyFrame "goodbye" []], true)

/-- `HubApplication.closed` (the transport's closed callback): just
unsubscribe. -/
def HubApplication.closed (subs : List (Nat × Int)) (client : Nat) :
    List (Nat × Int) :=
  HubServer.unsubscribe subs client

/-- The outcome of `HubApplication.recv_frame` on one frame: the
registry, the connection's `persist` flag, the attempted and delivered
fan-out writes, the frames sent back on this connection, and whether the
connection was closed. -/
structure ConnOutcome where
  subs : List (Nat × Int)
  persist : Bool
  attempts : List (Nat × MsgData)
  delivered : List (Nat × MsgData)
  replies : List MsgData
  closedConn : Bool
deriving DecidableEq, Repr

/-- `HubApplication.recv_frame`: decode the frame and dispatch.  A
decode failure (or a `ValueError` escaping a handler) draws an `error`
reply and a close; `notify` fans out; `subscribe` updates the registry
and makes the connection persistent; `goodbye` disconnects; any other
message type draws an `error` reply and a close. -/
def HubApplication.recv_frame (sendFails : Nat → Bool) (client : Nat)
    (hostname freshUuid : String) (persist : Bool) (subs : List (Nat × Int))
    (frame : MsgData) : ConnOutcome :=
  match Message.from_frame frame with
  | .error e =>
    ⟨subs, persist, [], [],
     [replyFrame "error" [("reason", .str ("Failed to decode message: " ++ e))]], true⟩
  | .ok msg =>
    if msg.msg_type == .str "notify" then
      match HubApplication.notify sendFails hostname freshUuid persist subs msg with
      | .ok (subs', att, del, replies, closedConn) =>
        ⟨subs', persist, att, del, replies, closedConn⟩
      | .error e =>
        ⟨subs, persist, [], [],
         [replyFrame "error" [("reason", .str ("Failed to decode message: " ++ e))]], true⟩
    else if msg.msg_type == .str "subscribe" then
      ⟨HubServer.subscribe subs client msg.version, true, [], [],
       [replyFrame "subscribed" []], false⟩
    else if msg.msg_type == .str "goodbye" then
      ⟨HubServer.unsubscribe subs client, persist, [], [],
       [replyFrame "goodbye" []], true⟩
    else
      ⟨subs, persist, [], [],
       [replyFrame "error"
          [("reason", .str ("Unknown message type \"" ++ pyStr msg.msg_type ++ "\""))]], true⟩

/-- A hub-registry operation (the mutations `HubServer._subscribers`
undergoes: `subscribe` from a subscribe frame, `unsubscribe` from
`disconnect` or the `closed` callback). -/
inductive HubOp where
  | sub (client : Nat) (version : Int) : HubOp
  | unsub (client : Nat) : HubOp
deriving DecidableEq, Repr

/-- Apply one registry operation. -/
def applyOp (subs : List (Nat × Int)) : HubOp → List (Nat × Int)
  | .sub c v => HubServer.subscribe subs c v
  | .unsub c => HubServer.unsubscribe subs c

/-- The registry reached from the hub's initial empty registry by a
sequence of operations. -/
def replayOps (ops : List HubOp) : List (Nat × Int) :=
  ops.foldl applyOp []

/-! ## The notifier queue (`heyu/notifier.py`) -/

/-- The `NotifierServer` state that `stop` and `next` touch: whether
`self._hub_app` is set (the server is running), the `_notifications`
queue (`none` is the `None` exit sentinel), and the `_notify_event`
flag. -/
structure NotifierState where
  running : Bool
  queue : List (Option Message)
  eventSet : Bool
deriving DecidableEq, Repr

/-- `NotifierServer.stop`: a no-op when not running; otherwise stop,
append the `None` sentinel exactly when called with arguments (i.e. as a
signal handler), and set the event. -/
def NotifierServer.stop (st : NotifierState) (hasArgs : Bool) : NotifierState :=
  if !st.running then st
  else
    { running := false
      queue := st.queue ++ if hasArgs then [none] else []
      eventSet := true }

/-- What one pass of the `while` loop in `NotifierServer.next` does. -/
inductive NextOutcome where
  | yields (m : Message) (rest : List (Option Message)) : NextOutcome
  | exits : NextOutcome
  | stops : NextOutcome
  | blocks : NextOutcome
deriving DecidableEq, Repr

/-- One pass of `NotifierServer.next`: pop the head of the queue —
`None` calls `sys.exit()`, a message is returned; an empty queue raises
`StopIteration` when the server is stopped and otherwise waits on the
event. -/
def NotifierServer.next (running : Bool) (queue : List (Option Message)) :
    NextOutcome :=
  match queue with
  | [] => if running then .blocks else .stops
  | none :: _ => .exits
  | some m :: rest => .yields m rest

/-- Repeated `NotifierServer.next` calls on a stopped server: yield each
queued message in order until the queue ends (`StopIteration`) or the
`None` sentinel is reached (`sys.exit()`). -/
def NotifierServer.drain : List (Option Message) → List Message × NextOutcome
  | [] => ([], .stops)
  | none :: _ => ([], .exits)
  | some m :: rest =>
    let r := NotifierServer.drain rest
    (m :: r.1, r.2)

/-- `NotifierServer.drain` takes exactly the step `NotifierServer.next`
takes on a stopped server. -/
theorem NotifierServer.drain_eq_next (queue : List (Option Message)) :
    NotifierServer.drain queue =
      match NotifierServer.next false queue with
      | .yields m rest => ((NotifierServer.drain rest).1.cons m, (NotifierServer.drain rest).2)
      | o => ([], o) := by
  cases queue with
  | nil => rfl
  | cons h t => cases h <;> rfl

/-! ## The script-template pre-processor (`heyu/notifier.py`) -/

/-- `_known_fields` of `heyu/notifier.py`. -/
def _known_fields : List String :=
  ["id", "application", "summary", "body", "category", "urgency"]

/-- `_double_re.sub(r'\1\1', s)`: double every brace in literal text. -/
def doubleBraces (s : String) : String :=
  String.mk (s.data.foldr
    (fun c acc => if c == '\x7b' || c == '\x7d' then c :: c :: acc else c :: acc) [])

/-- One tuple produced by `string.Formatter().parse`: the literal text,
the (optional) field name, the format spec and the conversion (both `""`
when absent — Python tests them for truthiness only). -/
structure FmtItem where
  literal : String
  field : Option String
  fmtSpec : String
  conversion : String
deriving DecidableEq, Repr

/-- The per-item reassembly of `_interpret_script`: doubled-brace
literal text, then the field — re-braced singly when the field is one of
`_known_fields` (kept for later substitution) and doubly (escaped to
literal text) otherwise, with `!conversion` and `:spec` re-attached. -/
def reparseItem (item : FmtItem) : String :=
  let lit := if item.literal != "" then doubleBraces item.literal else ""
  match item.field with
  | none => lit
  | some field =>
    let pre := if field ∈ _known_fields then "\x7b" else "\x7b\x7b"
    let post := if field ∈ _known_fields then "\x7d" else "\x7d\x7d"
    let fieldText := field
      ++ (if item.conversion != "" then "!" ++ item.conversion else "")
      ++ (if item.fmtSpec != "" then ":" ++ item.fmtSpec else "")
    lit ++ pre ++ fieldText ++ post

/-- `_interpret_script` of `heyu/notifier.py`, after `shlex.split` and
`string.Formatter().parse` (both Python standard library) have produced
the per-element parse items: reassemble every element.  The processor
has no rejection path — it always succeeds. -/
def _interpret_script (elems : List (List FmtItem)) : List String :=
  elems.map (fun items => String.join (items.map reparseItem))

/-! ## The backoff generator (`heyu/gtk.py`) -/

/-- Python `int(x)` on a float: truncation toward zero. -/
def pyInt (q : ℚ) : ℤ := if 0 ≤ q then ⌊q⌋ else ⌈q⌉

/-- One iteration of the `backoff` generator's sleep update
(`heyu/gtk.py` lines 64–77): doubling capped at `max_sleep` on failure
(`elapsed < threshold`), linear decay floored at 0 on success. -/
def backoffStep (max_sleep threshold recover : ℤ) (last_sleep : ℤ)
    (elapsed : ℚ) : ℤ :=
  if elapsed < (threshold : ℚ) then
    min (max (last_sleep * 2) 1) max_sleep
  else
    max (last_sleep - pyInt (elapsed / (recover : ℚ))) 0

/-- The sleep trajectory of the `backoff` generator from an initial
sleep `s0` (the generator starts with `last_sleep = 0`), where
`elapsed i` is the elapsed time measured after attempt `i`. -/
def backoffTraj (max_sleep threshold recover : ℤ) (elapsed : ℕ → ℚ)
    (s0 : ℤ) : ℕ → ℤ
  | 0 => s0
  | i + 1 => backoffStep max_sleep threshold recover
      (backoffTraj max_sleep threshold recover elapsed s0 i) (elapsed i)

/-! ## Association-list helper lemmas -/

theorem lookup_eq_none_iff {α β : Type} [BEq α] [LawfulBEq α] {l : List (α × β)}
    {k : α} : l.lookup k = none ↔ ∀ kv ∈ l, kv.1 ≠ k := by
  induction l with
  | nil => simp
  | cons hd tl ih =>
    obtain ⟨a, b⟩ := hd
    by_cases h : k = a
    · subst h
      simp [List.lookup_cons]
    · rw [List.lookup_cons]
      have : (k == a) = false := by simpa using h
      simp only [this]
      simp only [List.mem_cons, forall_eq_or_imp, ih]
      constructor
      · exact fun h' => ⟨fun he => h he.symm, h'⟩
      · exact fun h' => h'.2

theorem lookup_append {α β : Type} [BEq α] [LawfulBEq α] (l₁ l₂ : List (α × β))
    (k : α) : (l₁ ++ l₂).lookup k = (l₁.lookup k).or (l₂.lookup k) := by
  induction l₁ with
  | nil => simp
  | cons hd tl ih =>
    obtain ⟨a, b⟩ := hd
    rw [List.cons_append, List.lookup_cons, List.lookup_cons]
    cases h : k == a
    · simpa [h] using ih
    · simp [h]

theorem lookup_filter_of_key {α β : Type} [BEq α] [LawfulBEq α]
    {l : List (α × β)} {k : α} {p : α × β → Bool}
    (hp : ∀ v, p (k, v) = true) : (l.filter p).lookup k = l.lookup k := by
  induction l with
  | nil => simp
  | cons hd tl ih =>
    obtain ⟨a, b⟩ := hd
    by_cases h : k = a
    · subst h
      rw [List.filter_cons, hp b]
      simp [List.lookup_cons, ih]
    · have hb : (k == a) = false := by simpa using h
      rw [List.filter_cons]
      cases hpv : p (a, b)
      · rw [List.lookup_cons]
        simp only [hb]
        exact ih
      · simp [List.lookup_cons, hb, ih]

theorem lookup_filter_none {α β : Type} [BEq α] [LawfulBEq α]
    {l : List (α × β)} {k : α} {p : α × β → Bool}
    (h : l.lookup k = none) : (l.filter p).lookup k = none := by
  rw [lookup_eq_none_iff] at h ⊢
  exact fun kv hkv => h kv (List.mem_of_mem_filter hkv)

theorem any_key_eq_false {α β : Type} [BEq α] [LawfulBEq α] {l : List (α × β)}
    {k : α} (h : l.lookup k = none) : l.any (fun kv => kv.1 == k) = false := by
  rw [List.any_eq_false]
  rw [lookup_eq_none_iff] at h
  intro kv hkv
  simpa using h kv hkv

theorem dinsert_append {l : List (String × Value)} {k : String} {v : Value}
    (h : l.lookup k = none) : dinsert l k v = l ++ [(k, v)] := by
  unfold dinsert
  rw [any_key_eq_false h]
  simp

theorem find?_congr_on {α : Type} {l : List α} {p q : α → Bool}
    (h : ∀ x ∈ l, p x = q x) : l.find? p = l.find? q := by
  induction l with
  | nil => rfl
  | cons hd tl ih =>
    rw [List.find?_cons, List.find?_cons, h hd (List.mem_cons_self hd tl)]
    cases q hd
    · exact ih fun x hx => h x (List.mem_cons_of_mem hd hx)
    · rfl

/-! ## Properties of the `_versions` table -/

/-- The `defaults` of a version-0 message type (empty for unknown types,
as in `Message.__init__`). -/
def defaultsOf (mt : Value) : List (String × Value) :=
  ((typeInfo0 mt).map TypeInfo.defaults).getD []

/-- The `required` set of a version-0 message type. -/
def requiredOf (mt : Value) : List String :=
  ((typeInfo0 mt).map TypeInfo.required).getD []

/-- The `_args` normalisation of `Message.__init__`: drop arguments that
equal their declared default. -/
def argFilter (mt : Value) (args : List (String × Value)) : List (String × Value) :=
  args.filter (fun kv =>
    match (defaultsOf mt).lookup kv.1 with
    | none => true
    | some d => kv.2 != d)

/-- In the version-0 table, no required argument has a default, and no
required argument is named `__version__` or `msg_type`. -/
theorem required_props (t : Value) (info : TypeInfo) (h : typeInfo0 t = some info) :
    ∀ r ∈ info.required,
      info.defaults.lookup r = none ∧ r ≠ "__version__" ∧ r ≠ "msg_type" := by
  cases t with
  | nil => simp [typeInfo0, typeLookup] at h
  | int n => simp [typeInfo0, typeLookup] at h
  | str s =>
    simp only [typeInfo0, typeLookup, versions0, List.lookup] at h
    repeat' split at h
    all_goals cases h
    all_goals decide

/-- Version of `required_props` phrased with `requiredOf`/`defaultsOf`. -/
theorem requiredOf_props (mt : Value) :
    ∀ r ∈ requiredOf mt,
      (defaultsOf mt).lookup r = none ∧ r ≠ "__version__" ∧ r ≠ "msg_type" := by
  intro r hr
  cases hmt : typeInfo0 mt with
  | none => simp [requiredOf, hmt] at hr
  | some info =>
    simp only [requiredOf, hmt, Option.map_some', Option.getD_some] at hr
    have := required_props mt info hmt r hr
    simpa [defaultsOf, hmt] using this

/-- `Message.__init__` at `__version__ = 0`, unfolded. -/
theorem init_zero (mt : Value) (frame : Option MsgData) (args : List (String × Value)) :
    Message.init mt (.int 0) frame args =
      (match (requiredOf mt).find? (fun key => (args.lookup key).isNone) with
      | some key => .error ("missing required PDU field " ++ key)
      | none => .ok ⟨0, mt, defaultsOf mt, argFilter mt args,
          frame.elim [] (fun f => [(0, f)])⟩) := by
  cases frame <;> rfl

/-- Any successful `Message.__init__` is at version 0, has every
required argument of its type, and yields exactly the normalised
message. -/
theorem init_ok_elim (mtv verv : Value) (frame : Option MsgData)
    (args : List (String × Value)) (m : Message)
    (hm : Message.init mtv verv frame args = .ok m) :
    verv = .int 0 ∧
    (requiredOf mtv).find? (fun key => (args.lookup key).isNone) = none ∧
    m = ⟨0, mtv, defaultsOf mtv, argFilter mtv args,
      frame.elim [] (fun f => [(0, f)])⟩ := by
  cases verv with
  | nil => simp [Message.init] at hm
  | str s => simp [Message.init] at hm
  | int n =>
    by_cases hn : n = 0
    · subst hn
      rw [init_zero] at hm
      cases hfind : (requiredOf mtv).find? (fun key => (args.lookup key).isNone) with
      | some k => rw [hfind] at hm; cases hm
      | none =>
        rw [hfind] at hm
        injection hm with hm
        exact ⟨rfl, rfl, hm.symm⟩
    · exfalso
      have hb : (n == (0 : Int)) = false := beq_eq_false_iff_ne.mpr hn
      simp [Message.init, _versions, List.lookup, hb] at hm

/-- `init_ok_elim` specialised to direct construction (no primed
frame). -/
theorem init_ok_elim_none (mtv verv : Value) (args : List (String × Value))
    (m : Message) (hm : Message.init mtv verv none args = .ok m) :
    verv = .int 0 ∧
    (requiredOf mtv).find? (fun key => (args.lookup key).isNone) = none ∧
    m = ⟨0, mtv, defaultsOf mtv, argFilter mtv args, []⟩ := by
  simpa using init_ok_elim mtv verv none args m hm

/-- The required-argument check of `Message.__init__` sees through the
default-elision filter: required arguments never have defaults. -/
theorem requiredOf_lookup_argFilter (mtv : Value) (args : List (String × Value))
    (r : String) (hr : r ∈ requiredOf mtv) :
    (argFilter mtv args).lookup r = args.lookup r := by
  have hd : (defaultsOf mtv).lookup r = none := (requiredOf_props mtv r hr).1
  exact lookup_filter_of_key (fun v => by simp [hd])

/-- C1.  Codec round-trip: decoding the frame produced by encoding a
constructible `Message` yields a message with the same type, version and
argument bag; and a frame that decodes successfully re-encodes (at the
version it was decoded at) to exactly the original frame, via the frame
cache.  The two lookup hypotheses record that Python keyword arguments
can never contain the reserved `msg_type`/`__version__` names (the
former is the positional parameter, the latter is popped). -/
theorem codec_round_trip
    (mtv verv : Value) (args : List (String × Value)) (m : Message)
    (hm : Message.init mtv verv none args = .ok m)
    (h1 : args.lookup "msg_type" = none)
    (h2 : args.lookup "__version__" = none) :
    (∃ f m₁ m₂, m.to_frame _curr_version = .ok (f, m₁)
      ∧ Message.from_frame f = .ok m₂
      ∧ m₂.version = m.version ∧ m₂.msg_type = m.msg_type ∧ m₂.args = m.args)
    ∧ (∀ f msg, Message.from_frame f = .ok msg →
        msg.to_frame msg.version = .ok (f, msg)) := by
  constructor
  · obtain ⟨hv, hreq, hmm⟩ := init_ok_elim_none mtv verv args m hm
    subst hmm
    have hm1 : (argFilter mtv args).lookup "msg_type" = none := lookup_filter_none h1
    have hv1 : (argFilter mtv args).lookup "__version__" = none := lookup_filter_none h2
    have hd1 : dinsert (argFilter mtv args) "msg_type" mtv
        = argFilter mtv args ++ [("msg_type", mtv)] := dinsert_append hm1
    have hl2 : (argFilter mtv args ++ [("msg_type", mtv)]).lookup "__version__" = none := by
      rw [lookup_append, hv1]
      rfl
    have hd2 : dinsert (argFilter mtv args ++ [("msg_type", mtv)]) "__version__" (.int 0)
        = argFilter mtv args ++ [("msg_type", mtv)] ++ [("__version__", .int 0)] :=
      dinsert_append hl2
    set entries := argFilter mtv args ++ [("msg_type", mtv)] ++ [("__version__", .int 0)]
      with hentries
    have hfresh : freshFrame ⟨0, mtv, defaultsOf mtv, argFilter mtv args, []⟩
        = .map entries := by
      simp only [freshFrame, hd1, hd2]
    -- the frame lookups
    have hlv : entries.lookup "__version__" = some (.int 0) := by
      rw [hentries, lookup_append, hl2]
      rfl
    have hlm : entries.lookup "msg_type" = some mtv := by
      rw [hentries, lookup_append, lookup_append, hm1]
      rfl
    -- stripping the reserved keys recovers the argument bag
    have hfil : entries.filter (fun kv => kv.1 != "__version__" && kv.1 != "msg_type")
        = argFilter mtv args := by
      rw [hentries, List.filter_append, List.filter_append]
      have ha : (argFilter mtv args).filter
          (fun kv => kv.1 != "__version__" && kv.1 != "msg_type") = argFilter mtv args := by
        refine List.filter_eq_self.mpr fun kv hkv => ?_
        have hne1 : kv.1 ≠ "msg_type" := (lookup_eq_none_iff.mp hm1) kv hkv
        have hne2 : kv.1 ≠ "__version__" := (lookup_eq_none_iff.mp hv1) kv hkv
        simp [hne1, hne2]
      rw [ha]
      simp
    -- the required check still passes on the normalised bag
    have hreq2 : (requiredOf mtv).find?
        (fun key => (((argFilter mtv args)).lookup key).isNone) = none := by
      rw [List.find?_eq_none] at hreq ⊢
      intro r hr
      rw [requiredOf_lookup_argFilter mtv args r hr]
      exact hreq r hr
    have hff : argFilter mtv (argFilter mtv args) = argFilter mtv args := by
      unfold argFilter
      rw [List.filter_filter]
      exact List.filter_congr fun kv _ => Bool.and_self _
    refine ⟨.map entries,
      ⟨0, mtv, defaultsOf mtv, argFilter mtv args, [(0, .map entries)]⟩,
      ⟨0, mtv, defaultsOf mtv, argFilter mtv (argFilter mtv args),
        [(0, .map entries)]⟩, ?_, ?_, rfl, rfl, hff⟩
    · rw [show (⟨0, mtv, defaultsOf mtv, argFilter mtv args, []⟩ : Message).to_frame
          _curr_version
        = .ok (freshFrame ⟨0, mtv, defaultsOf mtv, argFilter mtv args, []⟩,
            ⟨0, mtv, defaultsOf mtv, argFilter mtv args,
              [(0, freshFrame ⟨0, mtv, defaultsOf mtv, argFilter mtv args, []⟩)]⟩) from rfl]
      rw [hfresh]
    · rw [Message.from_frame]
      rw [hlv, hlm, hfil]
      show Message.init mtv (.int 0) (some (.map entries)) (argFilter mtv args) = _
      rw [init_zero, hreq2]
      rfl
  · intro f msg hf
    cases f with
    | notMap => simp [Message.from_frame] at hf
    | map data =>
      rw [Message.from_frame] at hf
      cases hvv : data.lookup "__version__" with
      | none => rw [hvv] at hf; cases hf
      | some ver =>
        cases hmt : data.lookup "msg_type" with
        | none => rw [hvv, hmt] at hf; cases hf
        | some mt =>
          rw [hvv, hmt] at hf
          obtain ⟨hv0, -, hmsg⟩ := init_ok_elim _ _ _ _ _ hf
          subst hmsg
          rfl

/-- Witness for C1: a concrete `accepted` message decoded from a frame
re-encodes to exactly that frame. -/
theorem codec_round_trip_witness :
    (⟨0, .str "accepted", [], [("id", .str "42")],
      [(0, .map [("id", Value.str "42"), ("msg_type", .str "accepted"),
        ("__version__", .int 0)])]⟩ : Message).to_frame 0
    = .ok (.map [("id", Value.str "42"), ("msg_type", .str "accepted"),
        ("__version__", .int 0)],
      ⟨0, .str "accepted", [], [("id", .str "42")],
        [(0, .map [("id", Value.str "42"), ("msg_type", .str "accepted"),
          ("__version__", .int 0)])]⟩) := by
  have h := (codec_round_trip (.str "accepted") (.int 0) [("id", Value.str "42")]
    ⟨0, .str "accepted", [], [("id", .str "42")], []⟩ rfl rfl rfl).2
  exact h (.map [("id", Value.str "42"), ("msg_type", .str "accepted"),
    ("__version__", .int 0)]) _ rfl

theorem isOk_error (e : String) : (Except.error e : Except String Message).isOk = false := rfl

theorem isOk_ok (m : Message) : (Except.ok m : Except String Message).isOk = true := rfl

/-- The decode-failure conditions exactly as the specification states
them (refinement side of C2): the frame lacks `__version__` or
`msg_type`, names a version other than the supported version 0, or
names a known type while one of its required arguments is absent. -/
def SpecDecodeFails (entries : List (String × Value)) : Prop :=
  entries.lookup "__version__" = none
  ∨ entries.lookup "msg_type" = none
  ∨ (∃ v, entries.lookup "__version__" = some v ∧ v ≠ .int 0)
  ∨ (∃ mt info r, entries.lookup "msg_type" = some mt ∧ typeInfo0 mt = some info
      ∧ r ∈ info.required ∧ entries.lookup r = none)

/-- `Message.__init__` at version 0 fails exactly when a required
argument of the message type is absent. -/
theorem init_zero_fails_iff (mt : Value) (frame : Option MsgData)
    (args : List (String × Value)) :
    (Message.init mt (.int 0) frame args).isOk = false ↔
      ∃ r ∈ requiredOf mt, args.lookup r = none := by
  rw [init_zero]
  cases hfind : (requiredOf mt).find? (fun key => (args.lookup key).isNone) with
  | some k =>
    constructor
    · intro _
      refine ⟨k, List.mem_of_find?_eq_some hfind, ?_⟩
      have := List.find?_some hfind
      simpa [Option.isNone_iff_eq_none] using this
    · intro _
      rfl
  | none =>
    constructor
    · intro hcontra
      cases hcontra
    · rintro ⟨r, hr, hnone⟩
      rw [List.find?_eq_none] at hfind
      exact absurd (by simp [hnone]) (hfind r hr)

/-- A non-`.int 0` version value is rejected by `Message.__init__`. -/
theorem init_bad_version (mt v : Value) (frame : Option MsgData)
    (args : List (String × Value)) (hv : v ≠ .int 0) :
    Message.init mt v frame args = .error "cannot handle PDUs of version" := by
  cases v with
  | nil => rfl
  | str s => rfl
  | int n =>
    have hn : n ≠ 0 := fun h => hv (by rw [h])
    have hb : (n == (0 : Int)) = false := beq_eq_false_iff_ne.mpr hn
    simp [Message.init, _versions, List.lookup, hb]

/-- C2.  Decode-failure characterization: a frame fails to decode iff it
is not a mapping or satisfies `SpecDecodeFails`; a frame with an unknown
`msg_type` in version 0 decodes successfully with every non-reserved
field retained and its `known` flag false; and constructing a message of
a known type without a required argument fails. -/
theorem decode_failure_characterization :
    ((Message.from_frame .notMap).isOk = false)
    ∧ (∀ entries, (Message.from_frame (.map entries)).isOk = false
        ↔ SpecDecodeFails entries)
    ∧ (∀ entries mt,
        entries.lookup "__version__" = some (.int 0) →
        entries.lookup "msg_type" = some mt →
        typeInfo0 mt = none →
        Message.from_frame (.map entries)
          = .ok ⟨0, mt, [],
              entries.filter (fun kv => kv.1 != "__version__" && kv.1 != "msg_type"),
              [(0, .map entries)]⟩
        ∧ (⟨0, mt, [],
              entries.filter (fun kv => kv.1 != "__version__" && kv.1 != "msg_type"),
              [(0, .map entries)]⟩ : Message).known = false)
    ∧ (∀ mtv info r args, typeInfo0 mtv = some info → r ∈ info.required →
        args.lookup r = none →
        (Message.init mtv (.int 0) none args).isOk = false) := by
  refine ⟨rfl, ?_, ?_, ?_⟩
  · intro entries
    rw [Message.from_frame]
    cases hvv : entries.lookup "__version__" with
    | none =>
      simp only [SpecDecodeFails, hvv]
      cases entries.lookup "msg_type" <;> simp [isOk_error]
    | some ver =>
      cases hmt : entries.lookup "msg_type" with
      | none => simp [SpecDecodeFails, hvv, hmt, isOk_error]
      | some mt =>
        by_cases hver : ver = .int 0
        · subst hver
          show (Message.init mt (.int 0) (some (.map entries))
            (entries.filter (fun kv => kv.1 != "__version__" && kv.1 != "msg_type"))).isOk
              = false ↔ _
          rw [init_zero_fails_iff]
          constructor
          · rintro ⟨r, hr, hnone⟩
            refine Or.inr (Or.inr (Or.inr ?_))
            cases htype : typeInfo0 mt with
            | none => rw [requiredOf, htype] at hr; simp at hr
            | some info =>
              refine ⟨mt, info, r, hmt, htype, ?_, ?_⟩
              · rw [requiredOf, htype] at hr
                simpa using hr
              · have hrprops := requiredOf_props mt r hr
                have hp : ∀ v : Value,
                    ((fun kv : String × Value => kv.1 != "__version__" && kv.1 != "msg_type")
                    (r, v)) = true := by
                  intro v
                  simp [hrprops.2.1, hrprops.2.2]
                rw [lookup_filter_of_key hp] at hnone
                exact hnone
          · rintro (h | h | ⟨v, hv, hvne⟩ | ⟨mt', info, r, hmt', htype, hr, hnone⟩)
            · rw [hvv] at h; cases h
            · rw [hmt] at h; cases h
            · rw [hvv] at hv; injection hv with hv; exact absurd hv.symm hvne
            · rw [hmt] at hmt'; injection hmt' with hmt'; subst hmt'
              refine ⟨r, ?_, ?_⟩
              · rw [requiredOf, htype]; simpa using hr
              · have hrprops := requiredOf_props mt r (by rw [requiredOf, htype]; simpa using hr)
                have hp : ∀ v : Value,
                    ((fun kv : String × Value => kv.1 != "__version__" && kv.1 != "msg_type")
                    (r, v)) = true := by
                  intro v
                  simp [hrprops.2.1, hrprops.2.2]
                rw [lookup_filter_of_key hp]
                exact hnone
        · show (Message.init mt ver (some (.map entries))
            (entries.filter (fun kv => kv.1 != "__version__" && kv.1 != "msg_type"))).isOk
              = false ↔ _
          rw [init_bad_version mt ver (some (.map entries)) _ hver]
          simp only [SpecDecodeFails]
          constructor
          · intro _
            exact Or.inr (Or.inr (Or.inl ⟨ver, hvv, hver⟩))
          · intro _
            rfl
  · intro entries mt hvv hmt htype
    constructor
    · rw [Message.from_frame, hvv, hmt]
      show Message.init mt (.int 0) (some (.map entries)) _ = _
      rw [init_zero]
      rw [show requiredOf mt = [] by rw [requiredOf, htype]; rfl]
      rw [show defaultsOf mt = [] by rw [defaultsOf, htype]; rfl]
      rw [List.find?_nil]
      have : argFilter mt (entries.filter
          (fun kv => kv.1 != "__version__" && kv.1 != "msg_type"))
          = entries.filter (fun kv => kv.1 != "__version__" && kv.1 != "msg_type") := by
        unfold argFilter
        rw [show defaultsOf mt = [] by rw [defaultsOf, htype]; rfl]
        exact List.filter_eq_self.mpr fun kv _ => rfl
      rw [this]
      rfl
    · simp [Message.known, _versions, List.lookup, typeInfo0, typeLookup] at htype ⊢
      cases mt <;> simp_all [typeLookup]
  · intro mtv info r args htype hr hnone
    rw [init_zero_fails_iff]
    exact ⟨r, by rw [requiredOf, htype]; simpa using hr, hnone⟩

/-- Witness for C2: a concrete `accepted` frame with its required `id`
missing fails to decode, matching `SpecDecodeFails`. -/
theorem decode_failure_characterization_witness :
    ((Message.from_frame (.map [("__version__", .int 0),
        ("msg_type", .str "accepted")])).isOk = false
      ↔ SpecDecodeFails [("__version__", .int 0), ("msg_type", .str "accepted")])
    ∧ (Message.from_frame (.map [("__version__", .int 0),
        ("msg_type", .str "accepted")])).isOk = false := by
  refine ⟨decode_failure_characterization.2.1 _, ?_⟩
  rfl

/-- C6.  Default elision: for a known message type, supplying an
optional argument with its declared default value (anywhere among the
keyword arguments) constructs exactly the same message — same stored
argument bag — as omitting it, and hence the same wire bytes. -/
theorem default_elision (t : String) (info : TypeInfo) (k : String) (d : Value)
    (pre post : List (String × Value))
    (ht : versions0.lookup t = some info)
    (hkd : info.defaults.lookup k = some d) :
    Message.init (.str t) (.int 0) none (pre ++ [(k, d)] ++ post)
      = Message.init (.str t) (.int 0) none (pre ++ post)
    ∧ (∀ m m', Message.init (.str t) (.int 0) none (pre ++ [(k, d)] ++ post) = .ok m →
        Message.init (.str t) (.int 0) none (pre ++ post) = .ok m' →
        m.to_frame _curr_version = m'.to_frame _curr_version) := by
  have htype : typeInfo0 (.str t) = some info := by simp [typeInfo0, typeLookup, ht]
  have hreq : requiredOf (.str t) = info.required := by rw [requiredOf, htype]; rfl
  have hdef : defaultsOf (.str t) = info.defaults := by rw [defaultsOf, htype]; rfl
  have hfind : (requiredOf (.str t)).find?
        (fun key => ((pre ++ [(k, d)] ++ post).lookup key).isNone)
      = (requiredOf (.str t)).find? (fun key => ((pre ++ post).lookup key).isNone) := by
    apply find?_congr_on
    intro r hr
    rw [hreq] at hr
    have hrk : r ≠ k := by
      intro he
      have hd0 := (required_props (.str t) info htype r hr).1
      rw [he, hkd] at hd0
      cases hd0
    have hsing : ([(k, d)] : List (String × Value)).lookup r = none := by
      rw [lookup_eq_none_iff]
      intro kv hkv
      simp only [List.mem_singleton] at hkv
      rw [hkv]
      exact fun hc => hrk hc.symm
    have hl : (pre ++ [(k, d)] ++ post).lookup r = (pre ++ post).lookup r := by
      rw [lookup_append, lookup_append, lookup_append, hsing]
      cases pre.lookup r <;> rfl
    rw [hl]
  have hfil : argFilter (.str t) (pre ++ [(k, d)] ++ post)
      = argFilter (.str t) (pre ++ post) := by
    unfold argFilter
    rw [List.filter_append, List.filter_append, List.filter_append]
    have hsing : List.filter (fun kv =>
        match (defaultsOf (.str t)).lookup kv.1 with
        | none => true
        | some dd => kv.2 != dd) [(k, d)] = [] := by
      rw [List.filter_cons]
      simp [hdef, hkd]
    rw [hsing, List.append_nil]
  have hinit : Message.init (.str t) (.int 0) none (pre ++ [(k, d)] ++ post)
      = Message.init (.str t) (.int 0) none (pre ++ post) := by
    rw [init_zero, init_zero, hfind]
    cases hf : (requiredOf (.str t)).find? (fun key => ((pre ++ post).lookup key).isNone) with
    | some key => rfl
    | none => rw [hfil]
  refine ⟨hinit, fun m m' hm hm' => ?_⟩
  rw [hinit] at hm
  rw [hm] at hm'
  injection hm' with h
  rw [h]

/-- Witness for C6: a concrete `notify` with `urgency` supplied at its
default 0 equals the `notify` without it. -/
theorem default_elision_witness :
    Message.init (.str "notify") (.int 0) none
      [("app_name", .str "a"), ("summary", .str "s"), ("body", .str "b"),
        ("urgency", .int 0)]
      = Message.init (.str "notify") (.int 0) none
      [("app_name", .str "a"), ("summary", .str "s"), ("body", .str "b")] := by
  have h := (default_elision "notify"
    ⟨["app_name", "summary", "body"],
      [("urgency", .int 0), ("category", .nil), ("id", .nil)]⟩
    "urgency" (.int 0)
    [("app_name", .str "a"), ("summary", .str "s"), ("body", .str "b")] [] rfl rfl).1
  simpa using h

/-! ## Backoff lemmas (C5) -/

theorem pyInt_eq_floor {q : ℚ} (h : 0 ≤ q) : pyInt q = ⌊q⌋ := if_pos h

theorem pyInt_nonneg {q : ℚ} (h : 0 ≤ q) : 0 ≤ pyInt q := by
  rw [pyInt_eq_floor h]
  exact Int.floor_nonneg.mpr h

theorem one_le_pyInt {q : ℚ} (h : 1 ≤ q) : 1 ≤ pyInt q := by
  rw [pyInt_eq_floor (le_trans zero_le_one h)]
  exact Int.le_floor.mpr (by exact_mod_cast h)

theorem backoffTraj_succ (max_sleep threshold recover : ℤ) (elapsed : ℕ → ℚ)
    (s0 : ℤ) (i : ℕ) :
    backoffTraj max_sleep threshold recover elapsed s0 (i + 1)
      = backoffStep max_sleep threshold recover
          (backoffTraj max_sleep threshold recover elapsed s0 i) (elapsed i) := rfl

theorem backoffTraj_nonneg (max_sleep threshold recover : ℤ)
    (hmax : 1 ≤ max_sleep) (elapsed : ℕ → ℚ) (s0 : ℤ) (hs0 : 0 ≤ s0) :
    ∀ i, 0 ≤ backoffTraj max_sleep threshold recover elapsed s0 i := by
  intro i
  induction i with
  | zero => exact hs0
  | succ n ih =>
    rw [backoffTraj_succ]
    unfold backoffStep
    split
    · omega
    · exact le_max_right _ _

/-- C5.  The backoff update rule: on failure (`elapsed < threshold`) the
next sleep is `min(maxSleep, max(1, previous × 2))` (so the first
failure sleeps 1 second); on success the next sleep is
`max(0, previous − ⌊elapsed/recover⌋)`; under persistent failure the
trajectory from 0 equals (hence is bounded by) `min(maxSleep, 2^(i−1))`
and saturates at `maxSleep`; under repeated success it is non-increasing
and reaches 0 in finitely many steps.  The hypotheses are the sanity of
the parameters (`maxSleep ≥ 1`, `0 < recover ≤ threshold` — the CLI
defaults are 300, 5, 30). -/
theorem backoff_spec (max_sleep threshold recover : ℤ)
    (hmax : 1 ≤ max_sleep) (hrec : 0 < recover) (hrt : recover ≤ threshold) :
    (∀ (last_sleep : ℤ) (elapsed : ℚ), elapsed < (threshold : ℚ) →
      backoffStep max_sleep threshold recover last_sleep elapsed
        = min max_sleep (max 1 (last_sleep * 2)))
    ∧ (∀ elapsed : ℚ, elapsed < (threshold : ℚ) →
      backoffStep max_sleep threshold recover 0 elapsed = 1)
    ∧ (∀ (last_sleep : ℤ) (elapsed : ℚ), (threshold : ℚ) ≤ elapsed →
      backoffStep max_sleep threshold recover last_sleep elapsed
        = max 0 (last_sleep - ⌊elapsed / (recover : ℚ)⌋))
    ∧ (∀ elapsed : ℕ → ℚ, (∀ i, elapsed i < (threshold : ℚ)) →
      (∀ i, 1 ≤ i → backoffTraj max_sleep threshold recover elapsed 0 i
          = min max_sleep (2 ^ (i - 1)))
      ∧ (∀ i, 1 ≤ i → backoffTraj max_sleep threshold recover elapsed 0 i
          ≤ min max_sleep (2 ^ (i - 1)))
      ∧ (∃ N, ∀ i, N ≤ i →
          backoffTraj max_sleep threshold recover elapsed 0 i = max_sleep))
    ∧ (∀ elapsed : ℕ → ℚ, (∀ i, (threshold : ℚ) ≤ elapsed i) →
        ∀ s0 : ℤ, 0 ≤ s0 →
      (∀ i, backoffTraj max_sleep threshold recover elapsed s0 (i + 1)
          ≤ backoffTraj max_sleep threshold recover elapsed s0 i)
      ∧ (∃ N, backoffTraj max_sleep threshold recover elapsed s0 N = 0)) := by
  have hthreshQ : (0 : ℚ) < (threshold : ℚ) := by exact_mod_cast lt_of_lt_of_le hrec hrt
  have hrecQ : (0 : ℚ) < (recover : ℚ) := by exact_mod_cast hrec
  have hstep_fail : ∀ (last_sleep : ℤ) (elapsed : ℚ), elapsed < (threshold : ℚ) →
      backoffStep max_sleep threshold recover last_sleep elapsed
        = min max_sleep (max 1 (last_sleep * 2)) := by
    intro last_sleep elapsed he
    unfold backoffStep
    rw [if_pos he]
    omega
  have hstep_succ : ∀ (last_sleep : ℤ) (elapsed : ℚ), (threshold : ℚ) ≤ elapsed →
      backoffStep max_sleep threshold recover last_sleep elapsed
        = max 0 (last_sleep - ⌊elapsed / (recover : ℚ)⌋) := by
    intro last_sleep elapsed he
    unfold backoffStep
    rw [if_neg (not_lt.mpr he)]
    rw [pyInt_eq_floor (div_nonneg (le_trans hthreshQ.le he) hrecQ.le)]
    omega
  have hfail_closed : ∀ elapsed : ℕ → ℚ, (∀ i, elapsed i < (threshold : ℚ)) →
      ∀ i, 1 ≤ i → backoffTraj max_sleep threshold recover elapsed 0 i
        = min max_sleep (2 ^ (i - 1)) := by
    intro elapsed hall i hi
    induction i with
    | zero => omega
    | succ n ih =>
      by_cases hn : n = 0
      · subst hn
        rw [backoffTraj_succ, hstep_fail _ _ (hall 0)]
        show min max_sleep (max 1 (0 * 2)) = min max_sleep (2 ^ 0)
        omega
      · have hn1 : 1 ≤ n := by omega
        rw [backoffTraj_succ, hstep_fail _ _ (hall n), ih hn1]
        have hp1 : (1 : ℤ) ≤ 2 ^ (n - 1) := one_le_pow₀ (by norm_num)
        have hp2 : (2 : ℤ) ^ (n - 1 + 1) = 2 ^ (n - 1) * 2 := pow_succ 2 (n - 1)
        have hne : n - 1 + 1 = n := by omega
        rw [hne] at hp2
        show min max_sleep (max 1 (min max_sleep (2 ^ (n - 1)) * 2))
          = min max_sleep (2 ^ (n + 1 - 1))
        rw [show n + 1 - 1 = n from rfl, hp2]
        omega
  refine ⟨hstep_fail, ?_, hstep_succ, ?_, ?_⟩
  · intro elapsed he
    rw [hstep_fail 0 elapsed he]
    omega
  · intro elapsed hall
    refine ⟨hfail_closed elapsed hall, fun i hi => le_of_eq (hfail_closed elapsed hall i hi), ?_⟩
    refine ⟨max_sleep.toNat + 1, fun i hi => ?_⟩
    rw [hfail_closed elapsed hall i (by omega)]
    have h1 : max_sleep ≤ (max_sleep.toNat : ℤ) := by omega
    have h2 : ((max_sleep.toNat : ℤ)) < 2 ^ max_sleep.toNat := by
      have := Nat.lt_two_pow max_sleep.toNat
      exact_mod_cast this
    have h3 : (2 : ℤ) ^ max_sleep.toNat ≤ 2 ^ (i - 1) :=
      pow_le_pow_right₀ (by norm_num) (by omega)
    omega
  · intro elapsed hall s0 hs0
    have hd0 : ∀ i, 0 ≤ ⌊elapsed i / (recover : ℚ)⌋ := fun i =>
      Int.floor_nonneg.mpr (div_nonneg (le_trans hthreshQ.le (hall i)) hrecQ.le)
    have hd1 : ∀ i, 1 ≤ ⌊elapsed i / (recover : ℚ)⌋ := by
      intro i
      refine Int.le_floor.mpr ?_
      rw [le_div_iff₀ hrecQ]
      push_cast
      calc ((1 : ℚ)) * (recover : ℚ) = (recover : ℚ) := one_mul _
        _ ≤ (threshold : ℚ) := by exact_mod_cast hrt
        _ ≤ elapsed i := hall i
    have hnn := backoffTraj_nonneg max_sleep threshold recover hmax elapsed s0 hs0
    have hmono : ∀ i, backoffTraj max_sleep threshold recover elapsed s0 (i + 1)
        ≤ backoffTraj max_sleep threshold recover elapsed s0 i := by
      intro i
      rw [backoffTraj_succ, hstep_succ _ _ (hall i)]
      have := hnn i
      have := hd0 i
      omega
    refine ⟨hmono, ?_⟩
    have hbound : ∀ i : ℕ,
        backoffTraj max_sleep threshold recover elapsed s0 i ≤ max (s0 - (i : ℤ)) 0 := by
      intro i
      induction i with
      | zero =>
        have h0 : backoffTraj max_sleep threshold recover elapsed s0 0 = s0 := rfl
        rw [h0]
        push_cast
        omega
      | succ n ih =>
        rw [backoffTraj_succ, hstep_succ _ _ (hall n)]
        have := hd1 n
        push_cast
        push_cast at ih
        omega
    refine ⟨s0.toNat, ?_⟩
    have hb := hbound s0.toNat
    have hn := hnn s0.toNat
    have : ((s0.toNat : ℤ)) = s0 := by omega
    omega

/-- Witness for C5: the concrete parameters of the CLI defaults: the
first failed attempt sleeps 1 second. -/
theorem backoff_spec_witness :
    backoffStep 300 30 5 0 0 = 1 := by
  have h := (backoff_spec 300 30 5 (by norm_num) (by norm_num) (by norm_num)).2.1
  exact h 0 (by norm_num)

/-! ## Fan-out lemmas (C3) -/

theorem to_frame_hit (m : Message) (v : Int) (f : MsgData)
    (h : m.frameCache.lookup v = some f) : m.to_frame v = .ok (f, m) := by
  unfold Message.to_frame
  rw [h]

theorem to_frame_miss (m : Message) (v : Int)
    (h : m.frameCache.lookup v = none) (hv : v ≠ _curr_version) :
    m.to_frame v = .error "cannot serialize into version" := by
  unfold Message.to_frame
  rw [h, if_pos (bne_iff_ne.mpr hv)]

theorem to_frame_fresh (m : Message) (h : m.frameCache = []) :
    m.to_frame _curr_version
      = .ok (freshFrame m, { m with frameCache := [(_curr_version, freshFrame m)] }) := by
  unfold Message.to_frame
  rw [h]
  rfl

/-- Running the fan-out loop from the already-cached message: every
version-0 subscriber is attempted with the cached frame, every other
version is skipped, and the message no longer changes. -/
theorem submitFold_cached (sendFails : Nat → Bool) (m0 : Message) :
    ∀ (subs : List (Nat × Int)) (att del : List (Nat × MsgData)),
    subs.foldl (submitStep sendFails)
        ({ m0 with frameCache := [(_curr_version, freshFrame m0)] }, att, del)
      = ({ m0 with frameCache := [(_curr_version, freshFrame m0)] },
         att ++ (subs.filter (fun cv => cv.2 == _curr_version)).map
           (fun cv => (cv.1, freshFrame m0)),
         del ++ (subs.filter (fun cv => cv.2 == _curr_version && !sendFails cv.1)).map
           (fun cv => (cv.1, freshFrame m0))) := by
  intro subs
  induction subs with
  | nil =>
    intro att del
    simp
  | cons hd rest ih =>
    intro att del
    obtain ⟨c, v⟩ := hd
    rw [List.foldl_cons]
    by_cases hv : v = _curr_version
    · subst hv
      have hstep : submitStep sendFails
          ({ m0 with frameCache := [(_curr_version, freshFrame m0)] }, att, del)
          (c, _curr_version)
          = ({ m0 with frameCache := [(_curr_version, freshFrame m0)] },
             att ++ [(c, freshFrame m0)],
             del ++ if sendFails c then [] else [(c, freshFrame m0)]) := by
        unfold submitStep
        rw [to_frame_hit _ _ (freshFrame m0) (by rfl)]
      rw [hstep, ih]
      cases hs : sendFails c <;>
        simp [List.filter_cons, hs, List.append_assoc]
    · have hbv : (v == _curr_version) = false := beq_eq_false_iff_ne.mpr hv
      have hstep : submitStep sendFails
          ({ m0 with frameCache := [(_curr_version, freshFrame m0)] }, att, del) (c, v)
          = ({ m0 with frameCache := [(_curr_version, freshFrame m0)] }, att, del) := by
        unfold submitStep
        rw [to_frame_miss _ _ (by simp [List.lookup_cons, hbv]) hv]
      rw [hstep, ih]
      simp [List.filter_cons, hbv]

/-- `HubServer.submit` on a freshly constructed message (its frame cache
empty): the attempted writes are exactly the version-0 subscribers, each
with the same freshly encoded frame; the delivered writes are those the
transport accepted; subscribers at other versions are skipped. -/
theorem submit_spec (sendFails : Nat → Bool) (m0 : Message)
    (h : m0.frameCache = []) (subs : List (Nat × Int)) :
    (HubServer.submit sendFails subs m0).2.1
        = (subs.filter (fun cv => cv.2 == _curr_version)).map
            (fun cv => (cv.1, freshFrame m0))
    ∧ (HubServer.submit sendFails subs m0).2.2
        = (subs.filter (fun cv => cv.2 == _curr_version && !sendFails cv.1)).map
            (fun cv => (cv.1, freshFrame m0)) := by
  unfold HubServer.submit
  induction subs with
  | nil => exact ⟨rfl, rfl⟩
  | cons hd rest ih =>
    obtain ⟨c, v⟩ := hd
    rw [List.foldl_cons]
    by_cases hv : v = _curr_version
    · subst hv
      have hstep : submitStep sendFails (m0, [], []) (c, _curr_version)
          = ({ m0 with frameCache := [(_curr_version, freshFrame m0)] },
             [] ++ [(c, freshFrame m0)],
             [] ++ if sendFails c then [] else [(c, freshFrame m0)]) := by
        unfold submitStep
        simp [to_frame_fresh m0 h]
      rw [hstep, submitFold_cached]
      cases hs : sendFails c <;>
        simp [List.filter_cons, hs]
    · have hbv : (v == _curr_version) = false := beq_eq_false_iff_ne.mpr hv
      have hstep : submitStep sendFails (m0, [], []) (c, v) = (m0, [], []) := by
        unfold submitStep
        rw [to_frame_miss _ _ (by rw [h]; rfl) hv]
      rw [hstep]
      refine ⟨?_, ?_⟩
      · rw [ih.1]
        simp [List.filter_cons, hbv]
      · rw [ih.2]
        simp [List.filter_cons, hbv]

/-- C3.  Fan-out error isolation: on any `notify`, whatever the
subscriber set, the per-subscriber failure oracle `sendFails`, and the
per-subscriber encodability (`to_frame` fails for every version other
than 0), the hub attempts a write to *every* subscriber whose version is
encodable — one subscriber's encoding or write failure never affects the
others —, returns the registry unchanged (no subscriber is removed), and
still replies `accepted{id}` to the submitter. -/
theorem hub_rewritten_eq (hostname freshUuid : String) (msg : Message) :
    HubApplication.rewritten hostname freshUuid msg
      = .ok ⟨0, .str "notify", defaultsOf (.str "notify"),
          argFilter (.str "notify")
            [("id", hubMsgId freshUuid msg),
             ("app_name", .str ("[" ++ hostname ++ "]" ++ pyStr (msg.getattrD "app_name"))),
             ("summary", msg.getattrD "summary"),
             ("body", msg.getattrD "body"),
             ("urgency", msg.getattrD "urgency"),
             ("category", msg.getattrD "category")], []⟩ := by
  unfold HubApplication.rewritten
  rw [show ((.int _curr_version : Value)) = (.int 0 : Value) from rfl, init_zero]
  rfl

/-- What `HubApplication.notify` always returns: the unchanged registry,
the fan-out write attempts (exactly the version-0 subscribers), the
delivered subset, the `accepted{id}` reply, and a close only on
non-persistent connections. -/
theorem hub_notify_eq (sendFails : Nat → Bool) (hostname freshUuid : String)
    (persist : Bool) (subs : List (Nat × Int)) (msg : Message) :
    HubApplication.notify sendFails hostname freshUuid persist subs msg
      = .ok (subs,
          (subs.filter (fun cv => cv.2 == _curr_version)).map
            (fun cv => (cv.1, freshFrame ⟨0, .str "notify", defaultsOf (.str "notify"),
              argFilter (.str "notify")
                [("id", hubMsgId freshUuid msg),
                 ("app_name", .str ("[" ++ hostname ++ "]"
                    ++ pyStr (msg.getattrD "app_name"))),
                 ("summary", msg.getattrD "summary"),
                 ("body", msg.getattrD "body"),
                 ("urgency", msg.getattrD "urgency"),
                 ("category", msg.getattrD "category")], []⟩)),
          (subs.filter (fun cv => cv.2 == _curr_version && !sendFails cv.1)).map
            (fun cv => (cv.1, freshFrame ⟨0, .str "notify", defaultsOf (.str "notify"),
              argFilter (.str "notify")
                [("id", hubMsgId freshUuid msg),
                 ("app_name", .str ("[" ++ hostname ++ "]"
                    ++ pyStr (msg.getattrD "app_name"))),
                 ("summary", msg.getattrD "summary"),
                 ("body", msg.getattrD "body"),
                 ("urgency", msg.getattrD "urgency"),
                 ("category", msg.getattrD "category")], []⟩)),
          [replyFrame "accepted" [("id", hubMsgId freshUuid msg)]],
          !persist) := by
  unfold HubApplication.notify
  rw [hub_rewritten_eq]
  obtain ⟨hatt, hdel⟩ := submit_spec sendFails
    (⟨0, .str "notify", defaultsOf (.str "notify"),
      argFilter (.str "notify")
        [("id", hubMsgId freshUuid msg),
         ("app_name", .str ("[" ++ hostname ++ "]" ++ pyStr (msg.getattrD "app_name"))),
         ("summary", msg.getattrD "summary"),
         ("body", msg.getattrD "body"),
         ("urgency", msg.getattrD "urgency"),
         ("category", msg.getattrD "category")], []⟩ : Message) rfl subs
  show Except.ok (subs, (HubServer.submit sendFails subs _).2.1,
      (HubServer.submit sendFails subs _).2.2, _, !persist) = _
  rw [hatt, hdel]
  rfl

theorem fanout_error_isolation (sendFails : Nat → Bool)
    (hostname freshUuid : String) (persist : Bool)
    (subs : List (Nat × Int)) (msg : Message) :
    ∃ notif : Message,
      HubApplication.rewritten hostname freshUuid msg = .ok notif
      ∧ notif.frameCache = []
      ∧ HubApplication.notify sendFails hostname freshUuid persist subs msg
        = .ok (subs,
            (subs.filter (fun cv => cv.2 == _curr_version)).map
              (fun cv => (cv.1, freshFrame notif)),
            (subs.filter (fun cv => cv.2 == _curr_version && !sendFails cv.1)).map
              (fun cv => (cv.1, freshFrame notif)),
            [replyFrame "accepted" [("id", hubMsgId freshUuid msg)]],
            !persist) :=
  ⟨_, hub_rewritten_eq hostname freshUuid msg, rfl,
    hub_notify_eq sendFails hostname freshUuid persist subs msg⟩

/-- Witness-style corollary for C3 at a concrete state: subscribers at
versions 0 and 7, the version-7 encoding fails, yet the version-0
subscriber is written, the registry keeps both, and the submitter gets
`accepted`. -/
theorem fanout_error_isolation_witness :
    (HubApplication.notify (fun _ => false) "h" "u-1" false [(1, 0), (2, 7)]
        ⟨0, .str "notify", [("urgency", .int 0), ("category", .nil), ("id", .nil)],
          [("app_name", .str "a"), ("summary", .str "s"), ("body", .str "b")], []⟩).map
      (fun r => (r.1, (r.2.1.map Prod.fst), r.2.2.2.1.length))
    = .ok ([(1, 0), (2, 7)], [1], 1) := by
  obtain ⟨notif, -, -, hnote⟩ := fanout_error_isolation (fun _ => false) "h" "u-1" false
    [(1, 0), (2, 7)]
    ⟨0, .str "notify", [("urgency", .int 0), ("category", .nil), ("id", .nil)],
      [("app_name", .str "a"), ("summary", .str "s"), ("body", .str "b")], []⟩
  rw [hnote]
  rfl

/-! ## Notify-rewrite lemmas (C4) -/

theorem lookup_mem {α β : Type} [BEq α] [LawfulBEq α] {l : List (α × β)}
    {k : α} {v : β} (h : l.lookup k = some v) : (k, v) ∈ l := by
  induction l with
  | nil => cases h
  | cons hd tl ih =>
    obtain ⟨a, b⟩ := hd
    rw [List.lookup_cons] at h
    cases hb : (k == a) with
    | true =>
      rw [hb] at h
      injection h with h
      subst h
      have : k = a := by simpa using hb
      subst this
      exact List.mem_cons_self _ _
    | false =>
      rw [hb] at h
      exact List.mem_cons_of_mem _ (ih h)

/-- Attribute access on a freshly constructed message: whatever the
default-elision filter dropped, `__getattr__` returns the supplied value
(either from `_args` or as the equal default). -/
theorem getattr_init (mt : Value) (args : List (String × Value)) (k : String)
    (v : Value) (hk : args.lookup k = some v)
    (hall : ∀ kv ∈ args, kv.1 = k → kv.2 = v) :
    Message.getattr ⟨0, mt, defaultsOf mt, argFilter mt args, []⟩ k = some v := by
  unfold Message.getattr
  cases hl : (argFilter mt args).lookup k with
  | some w =>
    have hmem : (k, w) ∈ argFilter mt args := lookup_mem hl
    have : w = v := hall (k, w) (List.mem_of_mem_filter hmem) rfl
    simp [this]
  | none =>
    have hmem : (k, v) ∈ args := lookup_mem hk
    have hdropped : ¬((fun kv : String × Value =>
        match (defaultsOf mt).lookup kv.1 with
        | none => true
        | some d => kv.2 != d) (k, v) = true) := by
      intro hkept
      have : (k, v) ∈ argFilter mt args := List.mem_filter.mpr ⟨hmem, hkept⟩
      exact (lookup_eq_none_iff.mp hl) (k, v) this rfl
    simp only []
    cases hd : (defaultsOf mt).lookup k with
    | none => exact absurd (by simp [hd]) hdropped
    | some d =>
      have hvd : v = d := by
        by_contra hne
        exact hdropped (by simp [hd, hne])
      rw [hvd]

/-- The message `HubApplication.notify` builds, explicitly. -/
theorem rewritten_eq (hostname freshUuid : String) (msg : Message) :
    HubApplication.rewritten hostname freshUuid msg
      = .ok ⟨0, .str "notify", defaultsOf (.str "notify"),
          argFilter (.str "notify")
            [("id", hubMsgId freshUuid msg),
             ("app_name", .str ("[" ++ hostname ++ "]" ++ pyStr (msg.getattrD "app_name"))),
             ("summary", msg.getattrD "summary"),
             ("body", msg.getattrD "body"),
             ("urgency", msg.getattrD "urgency"),
             ("category", msg.getattrD "category")], []⟩ := by
  unfold HubApplication.rewritten
  rw [show ((.int _curr_version : Value)) = (.int 0 : Value) from rfl, init_zero]
  rfl

/-- C4 counterexample: an incoming `notify` that carries the id `""`
(present in its argument bag) is *not* preserved verbatim — the hub
replaces every falsy id by the freshly minted UUID. -/
theorem hub_id_not_verbatim :
    (Message.init (.str "notify") (.int 0) none
      [("app_name", .str "a"), ("summary", .str "s"), ("body", .str "b"),
        ("id", .str "")]).map
      (fun m => (m.args.lookup "id",
        (HubApplication.rewritten "h" "u-1" m).map (fun n => n.getattr "id")))
    = .ok (some (.str ""), .ok (some (.str "u-1")))
    ∧ Value.str "u-1" ≠ Value.str "" := by
  constructor
  · rfl
  · decide

/-- C4 (amended).  Hub notify rewriting: the fanned-out message has
`app_name = "[" ++ host ++ "]" ++ app_name`, where the host is the
hub's own FQDN for a loopback peer and otherwise the reverse-resolved
peer name, falling back to the literal address; its id is the incoming
id when that id is truthy (non-null, non-empty, non-zero) and a fresh
UUID4 otherwise; and `summary`, `body`, `urgency` and `category` are
preserved. -/
theorem hub_notify_rewrite :
    (∀ (fqdn : String) (resolve : String → Option String) (addr : String),
      (addr = "127.0.0.1" ∨ addr = "::1") →
        HubApplication.hostnameOf fqdn resolve addr = fqdn)
    ∧ (∀ (fqdn : String) (resolve : String → Option String) (addr h : String),
      ¬(addr = "127.0.0.1" ∨ addr = "::1") → resolve addr = some h →
        HubApplication.hostnameOf fqdn resolve addr = h)
    ∧ (∀ (fqdn : String) (resolve : String → Option String) (addr : String),
      ¬(addr = "127.0.0.1" ∨ addr = "::1") → resolve addr = none →
        HubApplication.hostnameOf fqdn resolve addr = addr)
    ∧ (∀ (hostname freshUuid : String) (msg : Message),
      ∃ notif : Message,
        HubApplication.rewritten hostname freshUuid msg = .ok notif
        ∧ (∀ a, msg.getattrD "app_name" = .str a →
            notif.getattr "app_name" = some (.str ("[" ++ hostname ++ "]" ++ a)))
        ∧ ((msg.getattrD "id").truthy = true →
            notif.getattr "id" = some (msg.getattrD "id"))
        ∧ ((msg.getattrD "id").truthy = false →
            notif.getattr "id" = some (.str freshUuid))
        ∧ notif.getattr "summary" = some (msg.getattrD "summary")
        ∧ notif.getattr "body" = some (msg.getattrD "body")
        ∧ notif.getattr "urgency" = some (msg.getattrD "urgency")
        ∧ notif.getattr "category" = some (msg.getattrD "category")) := by
  refine ⟨?_, ?_, ?_, ?_⟩
  · intro fqdn resolve addr haddr
    unfold HubApplication.hostnameOf
    rcases haddr with h | h <;> simp [h]
  · intro fqdn resolve addr h haddr hres
    unfold HubApplication.hostnameOf
    rw [if_neg (by simpa using haddr), hres]
  · intro fqdn resolve addr haddr hres
    unfold HubApplication.hostnameOf
    rw [if_neg (by simpa using haddr), hres]
  · intro hostname freshUuid msg
    refine ⟨_, rewritten_eq hostname freshUuid msg, ?_, ?_, ?_, ?_, ?_, ?_, ?_⟩
    · intro a ha
      have := getattr_init (.str "notify")
        [("id", hubMsgId freshUuid msg),
         ("app_name", .str ("[" ++ hostname ++ "]" ++ pyStr (msg.getattrD "app_name"))),
         ("summary", msg.getattrD "summary"),
         ("body", msg.getattrD "body"),
         ("urgency", msg.getattrD "urgency"),
         ("category", msg.getattrD "category")]
        "app_name" (.str ("[" ++ hostname ++ "]" ++ pyStr (msg.getattrD "app_name"))) rfl
        (by intro kv hkv hk1; simp at hkv
            rcases hkv with rfl | rfl | rfl | rfl | rfl | rfl <;> simp_all)
      rw [this, ha]
      rfl
    · intro htruthy
      have := getattr_init (.str "notify")
        [("id", hubMsgId freshUuid msg),
         ("app_name", .str ("[" ++ hostname ++ "]" ++ pyStr (msg.getattrD "app_name"))),
         ("summary", msg.getattrD "summary"),
         ("body", msg.getattrD "body"),
         ("urgency", msg.getattrD "urgency"),
         ("category", msg.getattrD "category")]
        "id" (hubMsgId freshUuid msg) rfl
        (by intro kv hkv hk1; simp at hkv
            rcases hkv with rfl | rfl | rfl | rfl | rfl | rfl <;> simp_all)
      rw [this]
      unfold hubMsgId
      rw [if_pos htruthy]
    · intro hfalsy
      have := getattr_init (.str "notify")
        [("id", hubMsgId freshUuid msg),
         ("app_name", .str ("[" ++ hostname ++ "]" ++ pyStr (msg.getattrD "app_name"))),
         ("summary", msg.getattrD "summary"),
         ("body", msg.getattrD "body"),
         ("urgency", msg.getattrD "urgency"),
         ("category", msg.getattrD "category")]
        "id" (hubMsgId freshUuid msg) rfl
        (by intro kv hkv hk1; simp at hkv
            rcases hkv with rfl | rfl | rfl | rfl | rfl | rfl <;> simp_all)
      rw [this]
      unfold hubMsgId
      rw [if_neg (by simp [hfalsy])]
    · exact getattr_init (.str "notify") _ "summary" (msg.getattrD "summary") rfl
        (by intro kv hkv hk1; simp at hkv
            rcases hkv with rfl | rfl | rfl | rfl | rfl | rfl <;> simp_all)
    · exact getattr_init (.str "notify") _ "body" (msg.getattrD "body") rfl
        (by intro kv hkv hk1; simp at hkv
            rcases hkv with rfl | rfl | rfl | rfl | rfl | rfl <;> simp_all)
    · exact getattr_init (.str "notify") _ "urgency" (msg.getattrD "urgency") rfl
        (by intro kv hkv hk1; simp at hkv
            rcases hkv with rfl | rfl | rfl | rfl | rfl | rfl <;> simp_all)
    · exact getattr_init (.str "notify") _ "category" (msg.getattrD "category") rfl
        (by intro kv hkv hk1; simp at hkv
            rcases hkv with rfl | rfl | rfl | rfl | rfl | rfl <;> simp_all)

/-- Witness for C4: loopback peers use the hub's FQDN, and a truthy
incoming id is preserved on a concrete message. -/
theorem hub_notify_rewrite_witness :
    HubApplication.hostnameOf "hub.example.org" (fun _ => none) "127.0.0.1"
      = "hub.example.org" := by
  exact hub_notify_rewrite.1 "hub.example.org" (fun _ => none) "127.0.0.1" (Or.inl rfl)

/-! ## Persistent-connection dispatch (C7) -/

/-- C7 counterexample: a hub connection that is already persistent
(subscribed) receives an `accepted` frame — neither `notify`, `subscribe`
nor `goodbye`.  Far from being a no-op, the hub sends an `error` reply
and closes the connection. -/
theorem persistent_quiescence_counterexample :
    (HubApplication.recv_frame (fun _ => false) 7 "h" "u" true [(7, 0)]
        (.map [("__version__", .int 0), ("msg_type", .str "accepted"),
          ("id", .str "x")])).closedConn = true
    ∧ (HubApplication.recv_frame (fun _ => false) 7 "h" "u" true [(7, 0)]
        (.map [("__version__", .int 0), ("msg_type", .str "accepted"),
          ("id", .str "x")])).replies
      = [replyFrame "error"
          [("reason", .str "Unknown message type \"accepted\"")]] :=
  ⟨rfl, rfl⟩

/-- C7 (amended).  A persistent (subscribed) hub connection keeps
dispatching every frame exactly as a fresh connection does: a malformed
frame draws an `error` reply and a close; `notify` is fanned out and
acknowledged with `accepted` (the connection stays open only because it
is persistent); `subscribe` re-subscribes and stays open; `goodbye`
disconnects; and any other message type draws an `error` reply and a
close.  Received frames are *not* ignored. -/
theorem persistent_dispatch (sendFails : Nat → Bool) (client : Nat)
    (hostname freshUuid : String) (subs : List (Nat × Int)) (frame : MsgData) :
    ((Message.from_frame frame).isOk = false →
      (HubApplication.recv_frame sendFails client hostname freshUuid true subs
          frame).closedConn = true
      ∧ (HubApplication.recv_frame sendFails client hostname freshUuid true subs
          frame).replies ≠ []
      ∧ (HubApplication.recv_frame sendFails client hostname freshUuid true subs
          frame).subs = subs)
    ∧ (∀ msg, Message.from_frame frame = .ok msg →
        ((msg.msg_type = .str "notify" →
          (HubApplication.recv_frame sendFails client hostname freshUuid true subs
              frame).closedConn = false
          ∧ (HubApplication.recv_frame sendFails client hostname freshUuid true subs
              frame).subs = subs
          ∧ (HubApplication.recv_frame sendFails client hostname freshUuid true subs
              frame).replies
            = [replyFrame "accepted" [("id", hubMsgId freshUuid msg)]])
        ∧ (msg.msg_type = .str "subscribe" →
          (HubApplication.recv_frame sendFails client hostname freshUuid true subs
              frame).closedConn = false
          ∧ (HubApplication.recv_frame sendFails client hostname freshUuid true subs
              frame).subs = HubServer.subscribe subs client msg.version
          ∧ (HubApplication.recv_frame sendFails client hostname freshUuid true subs
              frame).replies = [replyFrame "subscribed" []])
        ∧ (msg.msg_type = .str "goodbye" →
          (HubApplication.recv_frame sendFails client hostname freshUuid true subs
              frame).closedConn = true
          ∧ (HubApplication.recv_frame sendFails client hostname freshUuid true subs
              frame).subs = HubServer.unsubscribe subs client)
        ∧ (msg.msg_type ≠ .str "notify" → msg.msg_type ≠ .str "subscribe" →
            msg.msg_type ≠ .str "goodbye" →
          (HubApplication.recv_frame sendFails client hostname freshUuid true subs
              frame).closedConn = true
          ∧ (HubApplication.recv_frame sendFails client hostname freshUuid true subs
              frame).replies ≠ []
          ∧ (HubApplication.recv_frame sendFails client hostname freshUuid true subs
              frame).subs = subs))) := by
  constructor
  · intro hbad
    cases hf : Message.from_frame frame with
    | ok m =>
      rw [hf] at hbad
      cases hbad
    | error e =>
      unfold HubApplication.recv_frame
      rw [hf]
      exact ⟨rfl, by simp, rfl⟩
  · intro msg hf
    unfold HubApplication.recv_frame
    rw [hf]
    refine ⟨?_, ?_, ?_, ?_⟩
    · intro hmt
      simp only [hmt, beq_self_eq_true, if_true]
      rw [hub_notify_eq]
      exact ⟨rfl, rfl, rfl⟩
    · intro hmt
      simp only [hmt]
      rw [if_neg (by decide), if_pos (by decide)]
      exact ⟨rfl, rfl, rfl⟩
    · intro hmt
      simp only [hmt]
      rw [if_neg (by decide), if_neg (by decide), if_pos (by decide)]
      exact ⟨rfl, rfl⟩
    · intro h1 h2 h3
      simp [beq_eq_false_iff_ne.mpr h1, beq_eq_false_iff_ne.mpr h2,
        beq_eq_false_iff_ne.mpr h3]

/-- Witness for C7's amended theorem: a `subscribe` on an
already-persistent connection re-subscribes and does not close. -/
theorem persistent_dispatch_witness :
    (HubApplication.recv_frame (fun _ => false) 7 "h" "u" true []
        (.map [("__version__", .int 0), ("msg_type", .str "subscribe")])).closedConn
      = false := by
  have h := (persistent_dispatch (fun _ => false) 7 "h" "u" []
    (.map [("__version__", .int 0), ("msg_type", .str "subscribe")])).2
  have h2 := (h ⟨0, .str "subscribe", [], [],
    [(0, .map [("__version__", .int 0), ("msg_type", .str "subscribe")])]⟩ rfl).2.1
  exact (h2 rfl).1

/-! ## Subscriber-registry lemmas (C9) -/

/-- `HubServer.subscribe` never changes the key list when the client is
already subscribed, and appends its key otherwise. -/
theorem subscribe_keys (subs : List (Nat × Int)) (c : Nat) (v : Int) :
    (HubServer.subscribe subs c v).map Prod.fst
      = if subs.any (fun cv => cv.1 == c) then subs.map Prod.fst
        else subs.map Prod.fst ++ [c] := by
  unfold HubServer.subscribe
  by_cases h : subs.any (fun cv => cv.1 == c)
  · rw [if_pos h, if_pos h, List.map_map]
    refine List.map_congr_left fun cv _ => ?_
    by_cases hc : cv.1 == c
    · simp only [Function.comp_apply, hc, if_pos]
      simpa using (eq_of_beq hc).symm
    · simp only [Function.comp_apply]
      rw [if_neg (by simpa using hc)]
  · rw [if_neg h, if_neg h]
    simp

theorem subscribe_nodup (subs : List (Nat × Int)) (c : Nat) (v : Int)
    (h : (subs.map Prod.fst).Nodup) :
    ((HubServer.subscribe subs c v).map Prod.fst).Nodup := by
  rw [subscribe_keys]
  by_cases hc : subs.any (fun cv => cv.1 == c)
  · rwa [if_pos hc]
  · rw [if_neg hc]
    refine List.Nodup.append h (List.nodup_singleton c) ?_
    intro k hk hk1
    simp only [List.mem_singleton] at hk1
    subst hk1
    have hc' : (subs.any fun cv => cv.1 == k) = false := Bool.eq_false_iff.mpr hc
    rw [List.any_eq_false] at hc'
    obtain ⟨⟨k', v'⟩, hmem, hk'⟩ := List.mem_map.mp hk
    exact absurd (by simpa using hk') (hc' (k', v') hmem)

theorem unsubscribe_nodup (subs : List (Nat × Int)) (c : Nat)
    (h : (subs.map Prod.fst).Nodup) :
    ((HubServer.unsubscribe subs c).map Prod.fst).Nodup :=
  ((List.filter_sublist subs).map Prod.fst).nodup h

theorem replayOps_go_nodup (ops : List HubOp) :
    ∀ subs : List (Nat × Int), (subs.map Prod.fst).Nodup →
      ((ops.foldl applyOp subs).map Prod.fst).Nodup := by
  induction ops with
  | nil => exact fun subs h => h
  | cons op rest ih =>
    intro subs h
    rw [List.foldl_cons]
    refine ih _ ?_
    cases op with
    | sub c v => exact subscribe_nodup subs c v h
    | unsub c => exact unsubscribe_nodup subs c h

theorem subscribe_lookup (subs : List (Nat × Int)) (c : Nat) (v : Int)
    (h : subs.any (fun cv => cv.1 == c) = true) :
    (HubServer.subscribe subs c v).lookup c = some v := by
  unfold HubServer.subscribe
  rw [if_pos h]
  induction subs with
  | nil => cases h
  | cons hd rest ih =>
    obtain ⟨a, b⟩ := hd
    rw [List.map_cons]
    by_cases hac : (a == c)
    · have : a = c := by simpa using hac
      subst this
      simp [List.lookup_cons]
    · rw [List.any_cons] at h
      simp only at h
      have hrest : rest.any (fun cv => cv.1 == c) = true := by
        cases hr : rest.any (fun cv => cv.1 == c)
        · rw [hr] at h
          simp only [Bool.or_false] at h
          exact absurd h hac
        · rfl
      have hca : (c == a) = false := by
        refine beq_eq_false_iff_ne.mpr fun hc => ?_
        exact hac (by simp [hc])
      simp only [hac, if_neg, Bool.false_eq_true, if_false]
      rw [List.lookup_cons]
      simp only [hca]
      exact ih hrest

/-- C9.  Subscriber-registry invariant: every reachable registry has at
most one entry per client (its key list is duplicate-free); subscribing
an already-subscribed client replaces its entry (same length, entry now
holding the new version) rather than adding one; unsubscribing an absent
client is a no-op; and the transport's `closed` callback after a
`disconnect` (a second unsubscription) leaves the registry unchanged. -/
theorem subscriber_registry_invariant :
    (∀ ops : List HubOp, ((replayOps ops).map Prod.fst).Nodup)
    ∧ (∀ (subs : List (Nat × Int)) (c : Nat) (v : Int),
        subs.any (fun cv => cv.1 == c) = true →
        (HubServer.subscribe subs c v).length = subs.length
        ∧ (HubServer.subscribe subs c v).lookup c = some v)
    ∧ (∀ (subs : List (Nat × Int)) (c : Nat) (v : Int),
        subs.any (fun cv => cv.1 == c) = false →
        HubServer.subscribe subs c v = subs ++ [(c, v)])
    ∧ (∀ (subs : List (Nat × Int)) (c : Nat),
        subs.any (fun cv => cv.1 == c) = false →
        HubServer.unsubscribe subs c = subs)
    ∧ (∀ (subs : List (Nat × Int)) (c : Nat),
        HubApplication.closed (HubApplication.disconnect subs c).1 c
          = (HubApplication.disconnect subs c).1) := by
  refine ⟨?_, ?_, ?_, ?_, ?_⟩
  · intro ops
    exact replayOps_go_nodup ops [] (by simp)
  · intro subs c v h
    refine ⟨?_, subscribe_lookup subs c v h⟩
    unfold HubServer.subscribe
    rw [if_pos h, List.length_map]
  · intro subs c v h
    unfold HubServer.subscribe
    rw [if_neg (by simp [h])]
  · intro subs c h
    unfold HubServer.unsubscribe
    rw [List.any_eq_false] at h
    refine List.filter_eq_self.mpr fun cv hcv => ?_
    have := h cv hcv
    simpa [bne_iff_ne] using fun hc => this (by simp [hc])
  · intro subs c
    show HubServer.unsubscribe (HubServer.unsubscribe subs c) c
      = HubServer.unsubscribe subs c
    unfold HubServer.unsubscribe
    rw [List.filter_filter]
    exact List.filter_congr fun cv _ => Bool.and_self _

/-- Witness for C9: replaying a concrete operation sequence — subscribe,
re-subscribe (replacing), goodbye-unsubscribe, and the duplicate
`closed`-callback unsubscribe — keeps the registry consistent. -/
theorem subscriber_registry_invariant_witness :
    (([(5, 0), (9, 0)] : List (Nat × Int)).any (fun cv => cv.1 == 5) = true
      ∧ (HubServer.subscribe [(5, 0), (9, 0)] 5 1).length = 2
      ∧ (HubServer.subscribe [(5, 0), (9, 0)] 5 1).lookup 5 = some 1)
    ∧ HubServer.unsubscribe ([(9, 0)] : List (Nat × Int)) 5 = [(9, 0)] := by
  have h2 := subscriber_registry_invariant.2.1 [(5, 0), (9, 0)] 5 1 (by decide)
  have h4 := subscriber_registry_invariant.2.2.2.1 [(9, 0)] 5 (by decide)
  exact ⟨⟨by decide, h2.1, h2.2⟩, h4⟩

/-! ## Notifier sentinel lemmas (C10) -/

/-- Draining a run of real notifications reaches whatever the tail
decides. -/
theorem drain_append_map (ms : List Message) (tail : List (Option Message)) :
    NotifierServer.drain (ms.map some ++ tail)
      = (ms ++ (NotifierServer.drain tail).1, (NotifierServer.drain tail).2) := by
  induction ms with
  | nil => simp
  | cons m rest ih =>
    show NotifierServer.drain (some m :: (rest.map some ++ tail)) = _
    rw [NotifierServer.drain, ih]
    simp

/-- C10.  Sentinel-injection asymmetry: `stop` on a running notifier
server invoked as a signal handler (with arguments) appends the `None`
sentinel, so that iterating `next` yields the queued notifications and
then exits the process; invoked programmatically (without arguments) it
appends nothing, so iterating `next` yields the queued notifications and
then raises `StopIteration` on the empty queue of the stopped server. -/
theorem stop_sentinel_asymmetry (st : NotifierState) (ms : List Message)
    (hrun : st.running = true) (hq : st.queue = ms.map some) :
    ((NotifierServer.stop st true).queue = ms.map some ++ [none]
      ∧ (NotifierServer.stop st true).running = false
      ∧ NotifierServer.drain (NotifierServer.stop st true).queue = (ms, .exits))
    ∧ ((NotifierServer.stop st false).queue = ms.map some
      ∧ (NotifierServer.stop st false).running = false
      ∧ NotifierServer.drain (NotifierServer.stop st false).queue = (ms, .stops))
    ∧ NotifierServer.next false [] = .stops
    ∧ (∀ rest, NotifierServer.next false (none :: rest) = .exits) := by
  have hstop : ∀ hasArgs, NotifierServer.stop st hasArgs
      = { running := false,
          queue := st.queue ++ if hasArgs then [none] else [],
          eventSet := true } := by
    intro hasArgs
    unfold NotifierServer.stop
    rw [hrun]
    rfl
  refine ⟨⟨?_, ?_, ?_⟩, ⟨?_, ?_, ?_⟩, rfl, fun rest => rfl⟩
  · rw [hstop, hq]
    rfl
  · rw [hstop]
  · rw [hstop, hq]
    show NotifierServer.drain (ms.map some ++ [none]) = _
    rw [drain_append_map]
    simp [NotifierServer.drain]
  · rw [hstop, hq]
    simp
  · rw [hstop]
  · rw [hstop, hq]
    show NotifierServer.drain (ms.map some ++ []) = _
    rw [drain_append_map]
    simp [NotifierServer.drain]

/-- Witness for C10 at one queued notification. -/
theorem stop_sentinel_asymmetry_witness :
    (NotifierServer.stop ⟨true, [some ⟨0, .str "subscribed", [], [], []⟩], false⟩
        true).queue = [some ⟨0, .str "subscribed", [], [], []⟩, none]
    ∧ NotifierServer.drain [some ⟨0, .str "subscribed", [], [], []⟩, none]
      = ([⟨0, .str "subscribed", [], [], []⟩], .exits) := by
  have h := stop_sentinel_asymmetry
    ⟨true, [some ⟨0, .str "subscribed", [], [], []⟩], false⟩
    [⟨0, .str "subscribed", [], [], []⟩] rfl rfl
  refine ⟨h.1.1, ?_⟩
  have hd := h.1.2.2
  rw [h.1.1] at hd
  exact hd

/-! ## Script-template results (C8) -/

/-- C8 counterexample: a template whose only named field is the unknown
`bogus` is *not* rejected: `_interpret_script` succeeds and escapes the
field into doubled braces (literal text). -/
theorem script_unknown_field_not_rejected :
    _interpret_script [[⟨"", some "bogus", "", ""⟩]] = ["\x7b\x7bbogus\x7d\x7d"] := rfl

/-- C8 (amended).  The startup template pass never rejects a named
field: the six known fields are kept as single-brace substitution sites,
and any unknown field is escaped into doubled braces so it is emitted as
literal text rather than substituted. -/
theorem script_template_fields :
    (∀ (lit f sp conv : String), f ∈ _known_fields →
      reparseItem ⟨lit, some f, sp, conv⟩
        = (if lit != "" then doubleBraces lit else "") ++ "\x7b"
          ++ (f ++ (if conv != "" then "!" ++ conv else "")
              ++ (if sp != "" then ":" ++ sp else "")) ++ "\x7d")
    ∧ (∀ (lit f sp conv : String), f ∉ _known_fields →
      reparseItem ⟨lit, some f, sp, conv⟩
        = (if lit != "" then doubleBraces lit else "") ++ "\x7b\x7b"
          ++ (f ++ (if conv != "" then "!" ++ conv else "")
              ++ (if sp != "" then ":" ++ sp else "")) ++ "\x7d\x7d") := by
  constructor
  · intro lit f sp conv h
    simp only [reparseItem]
    rw [if_pos h, if_pos h]
  · intro lit f sp conv h
    simp only [reparseItem]
    rw [if_neg h, if_neg h]

/-- Witness for C8's amended theorem: the known field `summary` is kept
as a substitution site. -/
theorem script_template_fields_witness :
    reparseItem ⟨"", some "summary", "", ""⟩ = "\x7bsummary\x7d" := by
  rw [script_template_fields.1 "" "summary" "" "" (by decide)]
  rfl

end HeyU
